import Mathlib

/-!
# Verification of the street-food dashboard data pipeline

A shallow embedding of the data-preparation and aggregation pipeline of
`src/Dashboard.py` (lines 12-145): cleaning, derived columns, the country
filter, the grouped-mean aggregation and the per-country confidence-interval
table.  Cell values are modelled exactly: text cells as `String`, numeric
cells as `ℚ` (the script's float arithmetic is modelled by exact rational
arithmetic), and pandas missing values (`NaN`) as `none` of an `Option`.
-/

namespace StreetFood

/-! ## Character-level string helpers

These model the pandas/python string operations used by the script:
`str.strip`, `Series.str.replace` (literal, non-overlapping, left-to-right),
`Series.str.split(",")` and `Series.str.split()` (whitespace runs). -/

/-- Split a character list at every character satisfying `p`, keeping empty
segments, as python's `split(sep)` does.  `acc` holds the current segment
reversed. -/
def splitPredAux (p : Char → Bool) : List Char → List Char → List (List Char)
  | [], acc => [acc.reverse]
  | c :: cs, acc => if p c then acc.reverse :: splitPredAux p cs [] else splitPredAux p cs (c :: acc)

/-- Model of python `s.split(",")`: split on every comma, keeping empty
segments (so `""` yields one segment). -/
def strSplitOnComma (s : String) : List String :=
  (splitPredAux (· == ',') s.data []).map String.mk

/-- Model of python `s.split()` with no argument: split on whitespace runs and
drop empty tokens (so `""` yields no token). -/
def wsTokens (s : String) : List String :=
  ((splitPredAux (·.isWhitespace) s.data []).filter (· ≠ [])).map String.mk

/-- Strip leading and trailing whitespace from a character list. -/
def trimChars (cs : List Char) : List Char :=
  ((cs.dropWhile (·.isWhitespace)).reverse.dropWhile (·.isWhitespace)).reverse

/-- Model of `str.strip()` as applied to column headers by
`df.columns.str.strip()`. -/
def strTrim (s : String) : String :=
  ⟨trimChars s.data⟩

/-- Does `pat` occur at the head of `s`? -/
def startsWithChars : List Char → List Char → Bool
  | [], _ => true
  | _ :: _, [] => false
  | p :: ps, c :: cs => p == c && startsWithChars ps cs

/-- Replace every (non-overlapping, leftmost-first) occurrence of the pattern,
with explicit fuel, so that the function reduces structurally; the pattern is assumed
nonempty by the wrapper. -/
def replaceAux (pat rep : List Char) : Nat → List Char → List Char
  | _, [] => []
  | 0, s => s
  | fuel + 1, c :: cs =>
    if startsWithChars pat (c :: cs) then
      rep ++ replaceAux pat rep fuel (cs.drop (pat.length - 1))
    else
      c :: replaceAux pat rep fuel cs

/-- Model of pandas `Series.str.replace(pat, rep)` with a literal pattern:
replace every occurrence of the substring `pat` (case-sensitive, substring
match, non-overlapping, left to right). -/
def strReplace (s pat rep : String) : String :=
  if pat.data.isEmpty then s else ⟨replaceAux pat.data rep.data s.data.length s.data⟩

/-! ## Numeric coercion: model of `pd.to_numeric(-, errors="coerce")` -/

/-- Numeric value of a decimal digit character. -/
def digitVal (c : Char) : Nat := c.toNat - 48

/-- Natural number denoted by a list of decimal digit characters (empty list
denotes 0; callers guard nonemptiness). -/
def natFromDigits (cs : List Char) : Nat :=
  cs.foldl (fun n c => 10 * n + digitVal c) 0

/-- Parse an unsigned decimal numeral, allowing an optional single decimal
point with digits on at least one side (as python float syntax does). -/
def parseUnsigned (cs : List Char) : Option ℚ :=
  match splitPredAux (· == '.') cs [] with
  | [ip] =>
    if ip ≠ [] ∧ ip.all (·.isDigit) then some (natFromDigits ip : ℚ) else none
  | [ip, fp] =>
    if (ip ≠ [] ∨ fp ≠ []) ∧ ip.all (·.isDigit) ∧ fp.all (·.isDigit) then
      some ((natFromDigits ip : ℚ) + (natFromDigits fp : ℚ) / (10 ^ fp.length : ℚ))
    else none
  | _ => none

/-- Model of `pd.to_numeric(cell, errors="coerce")` on a text cell: a value
that fails numeric coercion becomes a missing-value marker (`none`), never an
error. -/
def to_numeric (s : String) : Option ℚ :=
  match trimChars s.data with
  | '-' :: rest => (parseUnsigned rest).map (fun q => -q)
  | '+' :: rest => parseUnsigned rest
  | cs => parseUnsigned cs

/-! ## Data model

A `Record` holds the cells of one row for the canonical (trimmed) column
names of the dataset; a cell is `none` when it is pandas `NaN` (or when its
column is absent from the table).  The price cell is `String` in the raw
table and `ℚ` after coercion, so `Record` is parametric in the price type.
The two derived columns created by the script are part of the same record
type, `none` until they are assigned. -/

structure Record (α : Type) where
  Country : Option String := none
  RegionCity : Option String := none
  DishName : Option String := none
  Description : Option String := none
  Ingredients : Option String := none
  TypicalPriceUSD : Option α := none
  Vegetarian : Option Int := none
  CookingMethod : Option String := none
  IngredientCount : Option Nat := none
  DishType : Option String := none
  deriving DecidableEq, Repr

/-- A table: the header names as read (possibly untrimmed), plus the ordered
rows.  A lookup `df[c]` succeeds exactly when `c` is in `columns`; a record
field is meaningful only when its column is present. -/
structure Table (α : Type) where
  columns : List String
  rows : List (Record α)
  deriving DecidableEq, Repr

/-! ## Cleaner (`Dashboard.py` lines 14-31) -/

/-- Price coercion step (line 21): `pd.to_numeric(df[price], errors="coerce")`
applied to a whole row; a `NaN` cell stays `NaN`, an unparseable cell becomes
`NaN`. -/
def coercePrice (r : Record String) : Record ℚ :=
  { Country := r.Country, RegionCity := r.RegionCity, DishName := r.DishName,
    Description := r.Description, Ingredients := r.Ingredients,
    TypicalPriceUSD := r.TypicalPriceUSD.bind to_numeric,
    Vegetarian := r.Vegetarian, CookingMethod := r.CookingMethod,
    IngredientCount := r.IngredientCount, DishType := r.DishType }

/-- Number of comma-separated segments of an `Ingredients` cell
(line 25: `.str.split(",").str.len()`). -/
def commaSegments (s : String) : Nat :=
  (strSplitOnComma s).length

/-- Number of whitespace-separated tokens of a `Description` cell
(line 28: `.str.split().str.len()`). -/
def wsTokenCount (s : String) : Nat :=
  (wsTokens s).length

/-- Does the row have a missing value in any column present in `cols`
(the derived `IngredientCount` column always exists once line 25/28 ran)?
This is the row predicate of `df.dropna()` (line 31). -/
def rowHasNull (cols : List String) (r : Record ℚ) : Bool :=
  (decide ("Country" ∈ cols) && r.Country.isNone) ||
  (decide ("Region/City" ∈ cols) && r.RegionCity.isNone) ||
  (decide ("DishName" ∈ cols) && r.DishName.isNone) ||
  (decide ("Description" ∈ cols) && r.Description.isNone) ||
  (decide ("Ingredients" ∈ cols) && r.Ingredients.isNone) ||
  (decide ("TypicalPrice(USD)" ∈ cols) && r.TypicalPriceUSD.isNone) ||
  (decide ("Vegetarian" ∈ cols) && r.Vegetarian.isNone) ||
  (decide ("CookingMethod" ∈ cols) && r.CookingMethod.isNone) ||
  r.IngredientCount.isNone

/-- Line 15: `df["Country"] = df["Country"].str.replace("Leba0n", "Lebanon")`
applied to one row. -/
def fixTypo (r : Record String) : Record String :=
  { r with Country := r.Country.map (fun s => strReplace s "Leba0n" "Lebanon") }

/-- IngredientCount derivation when the `Ingredients` column exists
(line 25); a `NaN` cell yields a `NaN` count. -/
def ingCountFromIngredients (r : Record ℚ) : Record ℚ :=
  { r with IngredientCount := r.Ingredients.map commaSegments }

/-- IngredientCount fallback when the `Ingredients` column is absent
(line 28): count of whitespace tokens of `Description`. -/
def ingCountFromDescription (r : Record ℚ) : Record ℚ :=
  { r with IngredientCount := r.Description.map wsTokenCount }

/-- The Cleaner, exactly in source order (`Dashboard.py` lines 14-31):
1. line 15: replace `"Leba0n"` by `"Lebanon"` in the `Country` column —
   this lookup happens on the *untrimmed* headers;
2. line 18: strip whitespace from every column header;
3. line 21: coerce `TypicalPrice(USD)` to numeric, unparseable → `NaN`;
4. lines 24-28: derive `IngredientCount` from `Ingredients` when that
   column exists, else from `Description`;
5. line 31: `dropna` — drop every row with a `NaN` anywhere.
A failed column lookup (pandas `KeyError`) is `none`. -/
def clean (t : Table String) : Option (Table ℚ) :=
  if "Country" ∈ t.columns then
    let rows1 := t.rows.map fixTypo
    let cols := t.columns.map strTrim
    if "TypicalPrice(USD)" ∈ cols then
      let rows2 := rows1.map coercePrice
      if "Ingredients" ∈ cols then
        let rows3 := rows2.map ingCountFromIngredients
        some ⟨cols, rows3.filter (fun r => !rowHasNull cols r)⟩
      else if "Description" ∈ cols then
        let rows3 := rows2.map ingCountFromDescription
        some ⟨cols, rows3.filter (fun r => !rowHasNull cols r)⟩
      else none
    else none
  else none

/-- Modelled from the spec (§4.1 step order): the same Cleaner but with the
steps in the order the specification states them — column headers are trimmed
*before* any column lookup, in particular before the `Country` substitution.
Used only to compare against `clean`, which follows the source order. -/
def cleanSpec (t : Table String) : Option (Table ℚ) :=
  let cols := t.columns.map strTrim
  if "Country" ∈ cols then
    let rows1 := t.rows.map fixTypo
    if "TypicalPrice(USD)" ∈ cols then
      let rows2 := rows1.map coercePrice
      if "Ingredients" ∈ cols then
        let rows3 := rows2.map ingCountFromIngredients
        some ⟨cols, rows3.filter (fun r => !rowHasNull cols r)⟩
      else if "Description" ∈ cols then
        let rows3 := rows2.map ingCountFromDescription
        some ⟨cols, rows3.filter (fun r => !rowHasNull cols r)⟩
      else none
    else none
  else none

/-! ## Filter (`Dashboard.py` line 40) -/

/-- `filtered_df = df.copy() if selected_country == "All" else
df[df["Country"] == selected_country]`.  `df.copy()` is a value copy, which
in this embedding of immutable tables is the table itself rebuilt field by
field; the comparison `df["Country"] == sel` is `False` on a `NaN` cell, so
only rows whose cell is exactly `some sel` are kept. -/
def filterByCountry (t : Table ℚ) (selection : String) : Table ℚ :=
  if selection = "All" then { columns := t.columns, rows := t.rows }
  else { t with rows := t.rows.filter (fun r => r.Country = some selection) }

/-! ## Aggregator: grouped means (`Dashboard.py` lines 52-55) -/

/-- One output row of a grouping aggregation: a key and its statistic. -/
structure AggRow where
  key : String
  value : ℚ
  deriving DecidableEq, Repr

/-- Comparison used by `sort_values` on the aggregated series. -/
def rVal (a b : AggRow) : Prop := a.value ≤ b.value

instance : DecidableRel rVal := fun a b => inferInstanceAs (Decidable (a.value ≤ b.value))

/-- The ascending sorted list of distinct values of a text column; pandas
`groupby` (with its default `sort=True`) and `sorted(col.unique())` both
enumerate group keys this way; `NaN` keys are skipped. -/
def sortedKeys (keys : List String) : List String :=
  List.insertionSort (· ≤ ·) keys.dedup

/-- `mean()` of a numeric series (pandas skips `NaN`, the caller passes the
non-`NaN` cells). -/
def listMean (l : List ℚ) : ℚ := l.sum / (l.length : ℚ)

/-- `rows.groupby(key)[val].mean()`: one row per distinct key, keys ascending
(pandas `groupby` sorts group keys), value the mean of the group's non-`NaN`
cells. -/
def groupMeans (rows : List (Record ℚ)) (keyOf : Record ℚ → Option String)
    (valOf : Record ℚ → Option ℚ) : List AggRow :=
  (sortedKeys (rows.filterMap keyOf)).map fun k =>
    ⟨k, listMean ((rows.filter (fun r => keyOf r = some k)).filterMap valOf)⟩

/-- `.sort_values(ascending=False)` on a series: pandas computes an ascending
argsort and reverses it (`nargsort`), so the descending order is the reverse
of an ascending value sort that keeps equal values in index order (numpy's
sort is stable on the short arrays at issue). -/
def sortValuesDesc (l : List AggRow) : List AggRow :=
  (List.insertionSort rVal l).reverse

/-- `meanByKey` as the source computes it (`avg_price_by_city`, lines 52-55):
group, take means, sort the means descending. -/
def meanByKey (t : Table ℚ) (keyOf : Record ℚ → Option String)
    (valOf : Record ℚ → Option ℚ) : List AggRow :=
  sortValuesDesc (groupMeans t.rows keyOf valOf)

/-! ## Confidence intervals (`Dashboard.py` lines 67-86)

The statsmodels call `sms.DescrStatsW(data).tconfint_mean(alpha)` is an
external library; it is modelled as an uninterpreted parameter `tconfint`
mapping the data and `alpha` to the pair (lower, upper).  Every claim proved
below holds for all values of that parameter. -/

/-- `compute_ci` (lines 67-72), verbatim: for more than one data point return
the mean and the interval from the external t-interval routine; otherwise
return `NaN` mean and `NaN` bounds. -/
def compute_ci (tconfint : List ℚ → ℚ → ℚ × ℚ) (data : List ℚ) (confidence : ℚ) :
    Option ℚ × (Option ℚ × Option ℚ) :=
  if data.length > 1 then
    let m := listMean data
    let ci := tconfint data (1 - confidence)
    (some m, (some ci.1, some ci.2))
  else (none, (none, none))

/-- One row of the confidence-interval table built in lines 78-84. -/
structure CIRow where
  Country : String
  Mean : Option ℚ
  CI_Lower : Option ℚ
  CI_Upper : Option ℚ
  Sample_Size : Nat
  deriving DecidableEq, Repr

/-- `confidenceInterval(values, confidence)` as the spec names the composite
the loop body computes per group (lines 77-83): the `compute_ci` result
together with `len(values)` as the sample size. -/
def confidenceInterval (tconfint : List ℚ → ℚ → ℚ × ℚ) (values : List ℚ)
    (confidence : ℚ) : Option ℚ × Option ℚ × Option ℚ × Nat :=
  let mc := compute_ci tconfint values confidence
  (mc.1, mc.2.1, mc.2.2, values.length)

/-- `sorted(df["Country"].unique())` (lines 36 and 75): the valid country
keys, ascending; `unique()` skips `NaN`. -/
def all_countries (t : Table ℚ) : List String :=
  sortedKeys (t.rows.filterMap (fun r => r.Country))

/-- `ci_results` (lines 74-84): one row per distinct country of the
*unfiltered* cleaned table `df`, built from `compute_ci` on that country's
prices with the default confidence 0.95.  `Sample_Size` is `len(prices)`;
on the cleaned table the group has no `NaN` price (dropna ran), so the
non-`NaN` price list has exactly the group's length. -/
def ci_results (tconfint : List ℚ → ℚ → ℚ × ℚ) (t : Table ℚ) : List CIRow :=
  (all_countries t).map fun country =>
    let grp := t.rows.filter (fun r => r.Country = some country)
    let prices := grp.filterMap (fun r => r.TypicalPriceUSD)
    let mc := compute_ci tconfint prices (95 / 100)
    ⟨country, mc.1, mc.2.1, mc.2.2, prices.length⟩

/-! ## DishType derivation and the dashboard run -/

/-- Lines 139-140: `np.where(filtered_df["Vegetarian"].astype(int) == 1,
"Vegetarian", "Non-Vegetarian")` on one row; a `NaN` flag cannot occur after
`dropna` and is left `none`. -/
def addDishType (r : Record ℚ) : Record ℚ :=
  { r with DishType := r.Vegetarian.map (fun v => if v = 1 then "Vegetarian" else "Non-Vegetarian") }

/-- Outcome of one dashboard rendering pass: either the early `st.stop()`
after the empty-filter warning (lines 41-43), or the rendered data. -/
inductive PipelineResult (α : Type) where
  | stopped : PipelineResult α
  | rendered : α → PipelineResult α
  deriving DecidableEq, Repr

/-- The aggregated tables the charts bind to (restricted to the ones the
specification's claims are about). -/
structure DashboardOutput where
  avg_price_by_city : List AggRow
  ci_table : List CIRow
  dishTypedRows : List (Record ℚ)
  deriving DecidableEq, Repr

/-- The dashboard pass from the cleaned table and the selected country
(lines 40-145): filter, stop with a warning when the filtered table is empty
(before any aggregation), otherwise compute the aggregates.  The
confidence-interval table reads the *unfiltered* `df` (line 75-76). -/
def runDashboard (tconfint : List ℚ → ℚ → ℚ × ℚ) (t : Table ℚ) (selection : String) :
    PipelineResult DashboardOutput :=
  let filtered := filterByCountry t selection
  if filtered.rows.isEmpty then .stopped
  else
    .rendered
      { avg_price_by_city := meanByKey filtered (fun r => r.RegionCity) (fun r => r.TypicalPriceUSD),
        ci_table := ci_results tconfint t,
        dishTypedRows := filtered.rows.map addDishType }

/-- The confidence-interval component of a pass, `none` when the pass
stopped. -/
def ciOf : PipelineResult DashboardOutput → Option (List CIRow)
  | .stopped => none
  | .rendered o => some o.ci_table

/-! ## Order relations used in the analysis of `sortValuesDesc` -/

/-- The order `meanByKey`'s output turns out to obey before reversal:
ascending value, with ties in ascending key order. -/
def rLex (a b : AggRow) : Prop :=
  a.value < b.value ∨ (a.value = b.value ∧ a.key < b.key)

/-! ## Concrete sample data used to exercise the pipeline -/

/-- A dummy stand-in for the external t-interval routine. -/
def tconfZero : List ℚ → ℚ → ℚ × ℚ := fun _ _ => (0, 0)

def rowA : Record ℚ := { Country := some "A", TypicalPriceUSD := some 3 }

def rowB : Record ℚ := { Country := some "B", TypicalPriceUSD := some 3 }

def rowC : Record ℚ := { Country := some "C", TypicalPriceUSD := some 5 }

/-- Three one-row countries with means 5, 3, 3 (the spec's tie scenario). -/
def tableABC : Table ℚ := ⟨["Country", "TypicalPrice(USD)"], [rowA, rowB, rowC]⟩

/-- The same rows with the first two swapped. -/
def tableBAC : Table ℚ := ⟨["Country", "TypicalPrice(USD)"], [rowB, rowA, rowC]⟩

/-- A cleaned table with a single country appearing twice. -/
def tableOneCountry : Table ℚ :=
  ⟨["Country", "TypicalPrice(USD)"],
   [{ Country := some "A", TypicalPriceUSD := some 3 },
    { Country := some "A", TypicalPriceUSD := some 5 }]⟩

/-- A raw table whose `Country` header carries a stray leading space. -/
def t4bad : Table String :=
  ⟨[" Country", "TypicalPrice(USD)", "Ingredients"],
   [{ Country := some "Leba0n", TypicalPriceUSD := some "3", Ingredients := some "a,b" }]⟩

/-- The same raw table with its headers already exact. -/
def t4good : Table String :=
  ⟨["Country", "TypicalPrice(USD)", "Ingredients"],
   [{ Country := some "Leba0n", TypicalPriceUSD := some "3", Ingredients := some "a,b" }]⟩

/-- A raw table with one fully healthy row, one row with an unparseable
price, and one row with a missing `Ingredients` cell but a present
`Description`. -/
def tRawEx : Table String :=
  ⟨["Country", "Region/City", "DishName", "Description", "Ingredients",
    "TypicalPrice(USD)", "Vegetarian", "CookingMethod"],
   [{ Country := some "Leba0n City", RegionCity := some "R", DishName := some "D",
      Description := some "two words", Ingredients := some "a,b,c",
      TypicalPriceUSD := some "3", Vegetarian := some 1, CookingMethod := some "Fried" },
    { Country := some "X", RegionCity := some "R", DishName := some "E",
      Description := some "ok", Ingredients := some "x",
      TypicalPriceUSD := some "bad", Vegetarian := some 0, CookingMethod := some "Grilled" },
    { Country := some "Y", RegionCity := some "R", DishName := some "F",
      Description := some "x y", Ingredients := none,
      TypicalPriceUSD := some "4", Vegetarian := some 0, CookingMethod := some "Steamed" }]⟩

/-- The surviving row of `clean tRawEx`. -/
def rCleanEx : Record ℚ :=
  { Country := some "Lebanon City", RegionCity := some "R", DishName := some "D",
    Description := some "two words", Ingredients := some "a,b,c",
    TypicalPriceUSD := some 3, Vegetarian := some 1, CookingMethod := some "Fried",
    IngredientCount := some 3 }

/-- The cleaned table `clean tRawEx` evaluates to. -/
def tCleanEx : Table ℚ :=
  ⟨["Country", "Region/City", "DishName", "Description", "Ingredients",
    "TypicalPrice(USD)", "Vegetarian", "CookingMethod"], [rCleanEx]⟩

/-! ## Facts about the Cleaner shared by several results -/

/-- Structure of a successful `clean` run: the output headers are the trimmed
input headers, the looked-up columns were present, and every surviving row
passed the `dropna` predicate. -/
theorem clean_eq_some {t : Table String} {t' : Table ℚ} (h : clean t = some t') :
    t'.columns = t.columns.map strTrim ∧ "Country" ∈ t.columns ∧
      "TypicalPrice(USD)" ∈ t'.columns ∧ ∀ r ∈ t'.rows, rowHasNull t'.columns r = false := by
  simp only [clean] at h
  split at h
  · split at h
    · split at h
      · rename_i hc hp hi
        injection h with h
        subst h
        refine ⟨rfl, hc, hp, fun r hr => ?_⟩
        simpa using (List.mem_filter.mp hr).2
      · split at h
        · rename_i hc hp hi hd
          injection h with h
          subst h
          refine ⟨rfl, hc, hp, fun r hr => ?_⟩
          simpa using (List.mem_filter.mp hr).2
        · exact absurd h (by simp)
    · exact absurd h (by simp)
  · exact absurd h (by simp)

/-- How `IngredientCount` was produced for a surviving row: from the row's
own `Ingredients` cell when that column exists (schema-level test), and from
its `Description` cell only when the whole column is absent. -/
theorem clean_ingredientCount {t : Table String} {t' : Table ℚ} (h : clean t = some t')
    {r : Record ℚ} (hr : r ∈ t'.rows) :
    ("Ingredients" ∈ t'.columns → r.IngredientCount = r.Ingredients.map commaSegments) ∧
      ("Ingredients" ∉ t'.columns →
        "Description" ∈ t'.columns ∧ r.IngredientCount = r.Description.map wsTokenCount) := by
  simp only [clean] at h
  split at h
  · split at h
    · split at h
      · rename_i hc hp hi
        injection h with h
        subst h
        obtain ⟨hmem, -⟩ := List.mem_filter.mp hr
        obtain ⟨r2, hr2, rfl⟩ := List.mem_map.mp hmem
        exact ⟨fun _ => rfl, fun hni => absurd hi hni⟩
      · split at h
        · rename_i hc hp hi hd
          injection h with h
          subst h
          obtain ⟨hmem, -⟩ := List.mem_filter.mp hr
          obtain ⟨r2, hr2, rfl⟩ := List.mem_map.mp hmem
          exact ⟨fun hi2 => absurd hi2 hi, fun _ => ⟨hd, rfl⟩⟩
        · exact absurd h (by simp)
    · exact absurd h (by simp)
  · exact absurd h (by simp)

/-- Field-level reading of the `dropna` predicate being false: every cell of
a present column is non-missing, and so is the derived count. -/
theorem rowHasNull_eq_false {cols : List String} {r : Record ℚ} (h : rowHasNull cols r = false) :
    ("Country" ∈ cols → r.Country.isSome) ∧ ("Region/City" ∈ cols → r.RegionCity.isSome) ∧
      ("DishName" ∈ cols → r.DishName.isSome) ∧ ("Description" ∈ cols → r.Description.isSome) ∧
      ("Ingredients" ∈ cols → r.Ingredients.isSome) ∧
      ("TypicalPrice(USD)" ∈ cols → r.TypicalPriceUSD.isSome) ∧
      ("Vegetarian" ∈ cols → r.Vegetarian.isSome) ∧
      ("CookingMethod" ∈ cols → r.CookingMethod.isSome) ∧ r.IngredientCount.isSome := by
  simp only [rowHasNull, Bool.or_eq_false_iff, Bool.and_eq_false_iff, decide_eq_false_iff_not,
    Option.isNone_eq_false_iff] at h
  obtain ⟨⟨⟨⟨⟨⟨⟨⟨h1, h2⟩, h3⟩, h4⟩, h5⟩, h6⟩, h7⟩, h8⟩, h9⟩ := h
  exact ⟨fun m => h1.resolve_left (not_not.mpr m), fun m => h2.resolve_left (not_not.mpr m),
    fun m => h3.resolve_left (not_not.mpr m), fun m => h4.resolve_left (not_not.mpr m),
    fun m => h5.resolve_left (not_not.mpr m), fun m => h6.resolve_left (not_not.mpr m),
    fun m => h7.resolve_left (not_not.mpr m), fun m => h8.resolve_left (not_not.mpr m), h9⟩

/-! ## Order theory of `meanByKey` -/

theorem rLex.le {a b : AggRow} (h : rLex a b) : a.value ≤ b.value := by
  rcases h with h | ⟨h, -⟩
  · exact h.le
  · exact h.le

theorem pairwise_orderedInsert_rLex {a : AggRow} {l : List AggRow}
    (hk : ∀ b ∈ l, a.key < b.key) (hl : l.Pairwise rLex) :
    (List.orderedInsert rVal a l).Pairwise rLex := by
  induction l with
  | nil => simp [List.orderedInsert]
  | cons b l ih =>
    by_cases hab : rVal a b
    · rw [List.orderedInsert, if_pos hab]
      refine List.Pairwise.cons (fun c hc => ?_) hl
      have hvals : a.value ≤ c.value := by
        rcases List.mem_cons.mp hc with rfl | hc2
        · exact hab
        · exact le_trans hab (List.rel_of_pairwise_cons hl hc2).le
      rcases lt_or_eq_of_le hvals with hlt | heq
      · exact Or.inl hlt
      · exact Or.inr ⟨heq, hk c hc⟩
    · rw [List.orderedInsert, if_neg hab]
      have hba : b.value < a.value := lt_of_not_le hab
      refine List.Pairwise.cons (fun c hc => ?_)
        (ih (fun c hc => hk c (List.mem_cons_of_mem b hc)) hl.of_cons)
      rcases (List.mem_orderedInsert rVal).mp hc with rfl | hc2
      · exact Or.inl hba
      · exact List.rel_of_pairwise_cons hl hc2

theorem pairwise_insertionSort_rLex {l : List AggRow}
    (hl : l.Pairwise (fun a b => a.key < b.key)) :
    (List.insertionSort rVal l).Pairwise rLex := by
  induction l with
  | nil => simp [List.insertionSort]
  | cons a l ih =>
    rw [List.insertionSort]
    refine pairwise_orderedInsert_rLex (fun b hb => ?_) (ih hl.of_cons)
    exact List.rel_of_pairwise_cons hl ((List.perm_insertionSort rVal l).subset hb)

theorem sortedKeys_sorted (keys : List String) : (sortedKeys keys).Sorted (· ≤ ·) :=
  List.sorted_insertionSort _ _

theorem sortedKeys_nodup (keys : List String) : (sortedKeys keys).Nodup :=
  ((List.perm_insertionSort _ _).nodup_iff).mpr (List.nodup_dedup keys)

theorem sortedKeys_pairwise_lt (keys : List String) : (sortedKeys keys).Pairwise (· < ·) :=
  (sortedKeys_sorted keys).lt_of_le (sortedKeys_nodup keys)

/-- `sortedKeys` is a function of the multiset of keys only: it cannot depend
on the input row order. -/
theorem sortedKeys_perm {l l' : List String} (h : l.Perm l') : sortedKeys l = sortedKeys l' := by
  refine List.eq_of_perm_of_sorted (r := (· ≤ · : String → String → Prop)) ?_
    (List.sorted_insertionSort _ _) (List.sorted_insertionSort _ _)
  exact (List.perm_insertionSort _ _).trans (h.dedup.trans (List.perm_insertionSort _ _).symm)

theorem listMean_perm {l l' : List ℚ} (h : l.Perm l') : listMean l = listMean l' := by
  unfold listMean
  rw [h.sum_eq, h.length_eq]

theorem groupMeans_key_pairwise (rows : List (Record ℚ)) (keyOf valOf) :
    (groupMeans rows keyOf valOf).Pairwise (fun a b => a.key < b.key) := by
  unfold groupMeans
  rw [List.pairwise_map]
  exact sortedKeys_pairwise_lt _

theorem groupMeans_perm {rows rows' : List (Record ℚ)} (h : rows.Perm rows') (keyOf valOf) :
    groupMeans rows keyOf valOf = groupMeans rows' keyOf valOf := by
  unfold groupMeans
  rw [sortedKeys_perm (h.filterMap keyOf)]
  refine List.map_congr_left (fun k _ => ?_)
  have hp : ((rows.filter (fun r => keyOf r = some k)).filterMap valOf).Perm
      ((rows'.filter (fun r => keyOf r = some k)).filterMap valOf) :=
    (h.filter _).filterMap _
  rw [listMean_perm hp]

/-! ## Claim C2: confidence-interval boundary behaviour -/

/-- C2 counterexample: the claim states `confidenceInterval([x], 0.95) =
(x, undefined, undefined, 1)`, but `compute_ci` returns `np.nan` for the
mean on any input of length ≤ 1 (line 72), so at `x = 2` the mean component
is the undefined marker, not `x`. -/
theorem confidenceInterval_singleton_counterexample :
    confidenceInterval tconfZero [2] (95 / 100) = (none, none, none, 1) ∧
      confidenceInterval tconfZero [2] (95 / 100) ≠ (some 2, none, none, 1) := by
  constructor
  · decide
  · decide

/-- C2 (amended): `confidenceInterval` on a list with at most one element
returns the all-undefined sentinel rather than raising — `(undefined,
undefined, undefined, 1)` for a singleton (the mean, too, is undefined) and
`(undefined, undefined, undefined, 0)` for the empty list — and its
sampleSize component always equals `len(values)`; this holds for every
choice of the external t-interval routine and of the confidence level. -/
theorem confidenceInterval_boundary (tc : List ℚ → ℚ → ℚ × ℚ) (confidence x : ℚ)
    (values : List ℚ) :
    confidenceInterval tc [x] confidence = (none, none, none, 1) ∧
      confidenceInterval tc [] confidence = (none, none, none, 0) ∧
      (confidenceInterval tc values confidence).2.2.2 = values.length := by
  unfold confidenceInterval compute_ci
  norm_num

/-! ## Claim C4: order of the cleaning steps -/

/-- C4 counterexample: the claim states the headers are trimmed before any
column lookup, in particular before the `Leba0n` substitution.  In the
source the substitution (line 15) precedes the trim (line 18): on a table
whose raw header is `" Country"`, the source's pipeline fails its very
first lookup (`KeyError`), while the spec-ordered pipeline trims first,
then succeeds and performs the substitution. -/
theorem clean_order_counterexample :
    clean t4bad = none ∧
      (cleanSpec t4bad).map (fun tb => tb.rows.map (fun r => r.Country)) =
        some [some "Lebanon"] := by
  constructor
  · decide
  · decide

/-- C4 (amended): `clean` performs the `Country` substitution *before*
trimming the column headers, so the substitution requires the raw header to
be exactly `"Country"`; whenever it is, the source-ordered pipeline agrees
with the spec-ordered (trim-first) pipeline, the substitution being the
same case-sensitive substring replacement in both. -/
theorem clean_eq_cleanSpec_of_country_header (t : Table String)
    (h : "Country" ∈ t.columns) : clean t = cleanSpec t := by
  have h2 : "Country" ∈ t.columns.map strTrim := List.mem_map.mpr ⟨"Country", h, rfl⟩
  simp only [clean, cleanSpec]
  rw [if_pos h, if_pos h2]

/-- Witness for C4 (amended): the hypothesis holds of the concrete table
`t4good` and the two pipelines agree there. -/
theorem clean_eq_cleanSpec_witness :
    "Country" ∈ t4good.columns ∧ clean t4good = cleanSpec t4good :=
  ⟨by decide, clean_eq_cleanSpec_of_country_header t4good (by decide)⟩

/-! ## Claim C5: no partial rows after cleaning -/

/-- C5: every record surviving `clean` has a numeric, non-missing
`TypicalPrice(USD)` and no missing value in any column of the table
(unparseable prices were coerced to missing markers by line 21 and the
whole row was then dropped by line 31). -/
theorem clean_no_partial_rows {t : Table String} {t' : Table ℚ}
    (h : clean t = some t') {r : Record ℚ} (hr : r ∈ t'.rows) :
    r.TypicalPriceUSD.isSome ∧ r.IngredientCount.isSome ∧
      ("Country" ∈ t'.columns → r.Country.isSome) ∧
      ("Region/City" ∈ t'.columns → r.RegionCity.isSome) ∧
      ("DishName" ∈ t'.columns → r.DishName.isSome) ∧
      ("Description" ∈ t'.columns → r.Description.isSome) ∧
      ("Ingredients" ∈ t'.columns → r.Ingredients.isSome) ∧
      ("Vegetarian" ∈ t'.columns → r.Vegetarian.isSome) ∧
      ("CookingMethod" ∈ t'.columns → r.CookingMethod.isSome) := by
  obtain ⟨hcols, hc, hp, hnull⟩ := clean_eq_some h
  obtain ⟨g1, g2, g3, g4, g5, g6, g7, g8, g9⟩ := rowHasNull_eq_false (hnull r hr)
  exact ⟨g6 hp, g9, g1, g2, g3, g4, g5, g7, g8⟩

/-- Witness for C5: the hypotheses hold of the concrete raw table `tRawEx`
(whose second row has the unparseable price `"bad"` and is dropped) and of
the surviving row. -/
theorem clean_no_partial_rows_witness :
    clean tRawEx = some tCleanEx ∧ rCleanEx ∈ tCleanEx.rows ∧
      (rCleanEx.TypicalPriceUSD.isSome ∧ rCleanEx.IngredientCount.isSome ∧
        ("Country" ∈ tCleanEx.columns → rCleanEx.Country.isSome) ∧
        ("Region/City" ∈ tCleanEx.columns → rCleanEx.RegionCity.isSome) ∧
        ("DishName" ∈ tCleanEx.columns → rCleanEx.DishName.isSome) ∧
        ("Description" ∈ tCleanEx.columns → rCleanEx.Description.isSome) ∧
        ("Ingredients" ∈ tCleanEx.columns → rCleanEx.Ingredients.isSome) ∧
        ("Vegetarian" ∈ tCleanEx.columns → rCleanEx.Vegetarian.isSome) ∧
        ("CookingMethod" ∈ tCleanEx.columns → rCleanEx.CookingMethod.isSome)) :=
  ⟨by rfl, by decide, @clean_no_partial_rows tRawEx tCleanEx (by rfl) rCleanEx (by decide)⟩

/-! ## Claim C6: the IngredientCount rule -/

/-- C6: `IngredientCount` is derived by a schema-level rule — when the
`Ingredients` column exists it is the number of comma-separated segments of
the row's `Ingredients` text (an empty string giving the naive-split count
1, not 0); only when the schema lacks an `Ingredients` column is it the
number of whitespace-separated tokens of `Description`. -/
theorem clean_ingredientCount_rule {t : Table String} {t' : Table ℚ}
    (h : clean t = some t') {r : Record ℚ} (hr : r ∈ t'.rows) :
    ("Ingredients" ∈ t'.columns →
        ∃ s, r.Ingredients = some s ∧ r.IngredientCount = some (commaSegments s) ∧
          (s = "" → r.IngredientCount = some 1)) ∧
      ("Ingredients" ∉ t'.columns →
        ∃ s, r.Description = some s ∧ r.IngredientCount = some (wsTokenCount s)) := by
  obtain ⟨hcols, -, -, hnull⟩ := clean_eq_some h
  obtain ⟨-, -, -, g4, g5, -, -, -, -⟩ := rowHasNull_eq_false (hnull r hr)
  obtain ⟨hI, hD⟩ := clean_ingredientCount h hr
  constructor
  · intro hing
    obtain ⟨s, hs⟩ := Option.isSome_iff_exists.mp (g5 hing)
    refine ⟨s, hs, ?_, ?_⟩
    · rw [hI hing, hs]
      rfl
    · intro hempty
      rw [hI hing, hs, hempty]
      rfl
  · intro hni
    obtain ⟨hdesc, hcount⟩ := hD hni
    obtain ⟨s, hs⟩ := Option.isSome_iff_exists.mp (g4 hdesc)
    exact ⟨s, hs, by rw [hcount, hs]; rfl⟩

/-- Witness for C6: the hypotheses hold of `tRawEx` (whose schema has an
`Ingredients` column) and its surviving row, whose `Ingredients` text
`"a,b,c"` yields the count 3. -/
theorem clean_ingredientCount_rule_witness :
    clean tRawEx = some tCleanEx ∧ rCleanEx ∈ tCleanEx.rows ∧
      (("Ingredients" ∈ tCleanEx.columns →
          ∃ s, rCleanEx.Ingredients = some s ∧
            rCleanEx.IngredientCount = some (commaSegments s) ∧
            (s = "" → rCleanEx.IngredientCount = some 1)) ∧
        ("Ingredients" ∉ tCleanEx.columns →
          ∃ s, rCleanEx.Description = some s ∧
            rCleanEx.IngredientCount = some (wsTokenCount s))) :=
  ⟨by rfl, by decide, @clean_ingredientCount_rule tRawEx tCleanEx (by rfl) rCleanEx (by decide)⟩

/-! ## Claim C7: DishType totality -/

/-- C7: `DishType` is derived totally from the `Vegetarian` flag read as an
integer — the value 1 gives `"Vegetarian"`, every other value gives
`"Non-Vegetarian"`, with no validation of the flag — so every record of
the dish-typed filtered view has one of the two labels. -/
theorem dishType_total {t : Table String} {t' : Table ℚ} (h : clean t = some t')
    (hveg : "Vegetarian" ∈ t'.columns) (sel : String) {r : Record ℚ}
    (hr : r ∈ (filterByCountry t' sel).rows.map addDishType) :
    (r.DishType = some "Vegetarian" ∨ r.DishType = some "Non-Vegetarian") ∧
      (r.DishType = some "Vegetarian" ↔ r.Vegetarian = some 1) := by
  obtain ⟨r0, hr0, rfl⟩ := List.mem_map.mp hr
  have hr0m : r0 ∈ t'.rows := by
    unfold filterByCountry at hr0
    split at hr0
    · exact hr0
    · exact (List.mem_filter.mp hr0).1
  obtain ⟨-, -, -, hnull⟩ := clean_eq_some h
  obtain ⟨-, -, -, -, -, -, g7, -, -⟩ := rowHasNull_eq_false (hnull r0 hr0m)
  obtain ⟨v, hv⟩ := Option.isSome_iff_exists.mp (g7 hveg)
  constructor
  · by_cases h1 : v = 1
    · left
      simp [addDishType, hv, h1]
    · right
      simp [addDishType, hv, h1]
  · by_cases h1 : v = 1
    · simp [addDishType, hv, h1]
    · simp [addDishType, hv, h1]

/-- Witness for C7: the hypotheses hold of `tRawEx`, the selection `"All"`
and the dish-typed surviving row (whose flag is 1). -/
theorem dishType_total_witness :
    clean tRawEx = some tCleanEx ∧ "Vegetarian" ∈ tCleanEx.columns ∧
      addDishType rCleanEx ∈ (filterByCountry tCleanEx "All").rows.map addDishType ∧
      (((addDishType rCleanEx).DishType = some "Vegetarian" ∨
          (addDishType rCleanEx).DishType = some "Non-Vegetarian") ∧
        ((addDishType rCleanEx).DishType = some "Vegetarian" ↔
          (addDishType rCleanEx).Vegetarian = some 1)) :=
  ⟨by rfl, by decide, by decide,
    @dishType_total tRawEx tCleanEx (by rfl) (by decide) "All" (addDishType rCleanEx) (by decide)⟩

/-! ## Claim C8: the country filter -/

/-- C8: `filterByCountry` with the sentinel `"All"` returns a table equal to
its input (built as an independent value, `df.copy()`), and with a country
selection returns exactly the rows whose `Country` equals the selection
under case-sensitive string equality. -/
theorem filterByCountry_exact (t : Table ℚ) (sel : String) (hsel : sel ≠ "All") :
    filterByCountry t "All" = t ∧
      (∀ r ∈ (filterByCountry t sel).rows, r.Country = some sel) ∧
      (∀ r ∈ t.rows, r.Country = some sel → r ∈ (filterByCountry t sel).rows) := by
  refine ⟨?_, ?_, ?_⟩
  · unfold filterByCountry
    rw [if_pos rfl]
  · intro r hr
    unfold filterByCountry at hr
    rw [if_neg hsel] at hr
    exact of_decide_eq_true (List.mem_filter.mp hr).2
  · intro r hr hc
    unfold filterByCountry
    rw [if_neg hsel]
    exact List.mem_filter.mpr ⟨hr, by simp [hc]⟩

/-- Witness for C8: the hypothesis holds of the selection `"B"` on the
three-country table. -/
theorem filterByCountry_exact_witness :
    ("B" : String) ≠ "All" ∧
      (filterByCountry tableABC "All" = tableABC ∧
        (∀ r ∈ (filterByCountry tableABC "B").rows, r.Country = some "B") ∧
        (∀ r ∈ tableABC.rows, r.Country = some "B" →
          r ∈ (filterByCountry tableABC "B").rows)) :=
  ⟨by decide, filterByCountry_exact tableABC "B" (by decide)⟩

/-! ## Claim C9: empty filter result stops the pipeline -/

/-- C9: when the filter's output is empty, the dashboard pass surfaces the
explicit stop signal (the warning followed by `st.stop()`, lines 41-43) and
renders nothing — no aggregate is computed over the empty filtered table. -/
theorem emptyFilter_stops (tc : List ℚ → ℚ → ℚ × ℚ) (t : Table ℚ) (sel : String)
    (h : (filterByCountry t sel).rows = []) :
    runDashboard tc t sel = PipelineResult.stopped ∧
      ∀ o : DashboardOutput, runDashboard tc t sel ≠ PipelineResult.rendered o := by
  have h1 : runDashboard tc t sel = PipelineResult.stopped := by
    unfold runDashboard
    rw [if_pos (by simp [h])]
  refine ⟨h1, fun o hcontra => ?_⟩
  rw [h1] at hcontra
  exact PipelineResult.noConfusion hcontra

/-- Witness for C9: the hypothesis holds of the selection `"Z"`, absent from
the one-country table. -/
theorem emptyFilter_stops_witness :
    (filterByCountry tableOneCountry "Z").rows = [] ∧
      (runDashboard tconfZero tableOneCountry "Z" = PipelineResult.stopped ∧
        ∀ o : DashboardOutput,
          runDashboard tconfZero tableOneCountry "Z" ≠ PipelineResult.rendered o) :=
  ⟨by decide, emptyFilter_stops tconfZero tableOneCountry "Z" (by decide)⟩

/-! ## Claim C10: missing Ingredients cells drop the whole row -/

/-- C10: when the schema has an `Ingredients` column, a record with a
missing `Ingredients` cell is removed entirely (its `IngredientCount`
becomes a missing marker before the null-drop), whatever its `Description`
holds: every surviving row has a present `Ingredients` cell and its count
comes from that cell, never from `Description`. -/
theorem missing_ingredients_dropped {t : Table String} {t' : Table ℚ}
    (h : clean t = some t') (hing : "Ingredients" ∈ t'.columns) {r : Record ℚ}
    (hr : r ∈ t'.rows) :
    r.Ingredients.isSome ∧ r.IngredientCount = r.Ingredients.map commaSegments := by
  obtain ⟨-, -, -, hnull⟩ := clean_eq_some h
  obtain ⟨-, -, -, -, g5, -, -, -, -⟩ := rowHasNull_eq_false (hnull r hr)
  exact ⟨g5 hing, (clean_ingredientCount h hr).1 hing⟩

/-- Witness for C10: the hypotheses hold of `tRawEx`, whose third raw row
has `Ingredients = none` but a present `Description` and is indeed absent
from the cleaned table. -/
theorem missing_ingredients_dropped_witness :
    clean tRawEx = some tCleanEx ∧ "Ingredients" ∈ tCleanEx.columns ∧
      rCleanEx ∈ tCleanEx.rows ∧
      (rCleanEx.Ingredients.isSome ∧
        rCleanEx.IngredientCount = rCleanEx.Ingredients.map commaSegments) :=
  ⟨by rfl, by decide, by decide,
    @missing_ingredients_dropped tRawEx tCleanEx (by rfl) (by decide) rCleanEx (by decide)⟩

/-! ## Claim C1: order and determinism of `meanByKey` -/

/-- C1 counterexample: the claim states that ties are broken by *ascending*
key order, so over three countries with means 5, 3, 3 the output should be
`[C(5), A(3), B(3)]`.  The source sorts descending by reversing an
ascending value sort (`sort_values(ascending=False)` reverses the ascending
argsort), which puts the tied rows in *descending* key order:
`[C(5), B(3), A(3)]`. -/
theorem meanByKey_tie_counterexample :
    meanByKey tableABC (fun r => r.Country) (fun r => r.TypicalPriceUSD) =
        [⟨"C", 5⟩, ⟨"B", 3⟩, ⟨"A", 3⟩] ∧
      meanByKey tableABC (fun r => r.Country) (fun r => r.TypicalPriceUSD) ≠
        [⟨"C", 5⟩, ⟨"A", 3⟩, ⟨"B", 3⟩] := by
  have hAB : ("A" : String) ≤ "B" := String.le_iff_toList_le.mpr (by decide)
  have hBC : ("B" : String) ≤ "C" := String.le_iff_toList_le.mpr (by decide)
  have hkeys : sortedKeys (tableABC.rows.filterMap (fun r => r.Country)) = ["A", "B", "C"] := by
    have h0 : tableABC.rows.filterMap (fun r => r.Country) = ["A", "B", "C"] := rfl
    have hd : (["A", "B", "C"] : List String).dedup = ["A", "B", "C"] := by decide
    have hAB2 : (['A'] : List Char) ≤ ['B'] := by decide
    have hBC2 : (['B'] : List Char) ≤ ['C'] := by decide
    unfold sortedKeys
    rw [h0, hd]
    simp [List.insertionSort, List.orderedInsert, String.le_iff_toList_le, hAB2, hBC2]
  have hgm : groupMeans tableABC.rows (fun r => r.Country) (fun r => r.TypicalPriceUSD) =
      [⟨"A", listMean [3]⟩, ⟨"B", listMean [3]⟩, ⟨"C", listMean [5]⟩] := by
    unfold groupMeans
    rw [hkeys]
    rfl
  have hm3 : listMean [(3 : ℚ)] = 3 := by simp [listMean]
  have hm5 : listMean [(5 : ℚ)] = 5 := by simp [listMean]
  have hmain : meanByKey tableABC (fun r => r.Country) (fun r => r.TypicalPriceUSD) =
      [⟨"C", 5⟩, ⟨"B", 3⟩, ⟨"A", 3⟩] := by
    unfold meanByKey
    rw [hgm, hm3, hm5]
    simp [sortValuesDesc, List.insertionSort, List.orderedInsert, rVal]
  refine ⟨hmain, ?_⟩
  rw [hmain]
  decide

/-- C1 (amended): `meanByKey` returns the per-key means sorted descending by
the mean value with ties broken by *descending* key order (the reverse of a
stable ascending value sort over the key-ascending grouped series), and its
output is identical across two runs regardless of the input row order. -/
theorem meanByKey_deterministic_sorted (t t' : Table ℚ)
    (keyOf : Record ℚ → Option String) (valOf : Record ℚ → Option ℚ)
    (h : t.rows.Perm t'.rows) :
    meanByKey t keyOf valOf = meanByKey t' keyOf valOf ∧
      (meanByKey t keyOf valOf).Pairwise
        (fun a b => b.value < a.value ∨ (b.value = a.value ∧ b.key < a.key)) := by
  constructor
  · unfold meanByKey
    rw [groupMeans_perm h]
  · unfold meanByKey sortValuesDesc
    rw [List.pairwise_reverse]
    exact pairwise_insertionSort_rLex (groupMeans_key_pairwise _ _ _)

/-- Witness for C1 (amended): the permutation hypothesis holds of the
three-country table and its variant with the first two rows swapped. -/
theorem meanByKey_deterministic_sorted_witness :
    meanByKey tableBAC (fun r => r.Country) (fun r => r.TypicalPriceUSD) =
        meanByKey tableABC (fun r => r.Country) (fun r => r.TypicalPriceUSD) ∧
      (meanByKey tableBAC (fun r => r.Country) (fun r => r.TypicalPriceUSD)).Pairwise
        (fun a b => b.value < a.value ∨ (b.value = a.value ∧ b.key < a.key)) :=
  meanByKey_deterministic_sorted tableBAC tableABC (fun r => r.Country)
    (fun r => r.TypicalPriceUSD) (List.Perm.swap rowA rowB [rowC])

/-! ## Claim C3: the confidence-interval table ignores the filter -/

theorem mem_all_countries {t : Table ℚ} {c : String} (h : c ∈ all_countries t) :
    ∃ r ∈ t.rows, r.Country = some c := by
  unfold all_countries sortedKeys at h
  exact List.mem_filterMap.mp (List.mem_dedup.mp ((List.perm_insertionSort _ _).subset h))

/-- When the selection comes from the selection set the script offers
(`["All"] + all_countries`) and the table has rows, the pass renders and its
confidence-interval component is the table computed from the unfiltered
data. -/
theorem ciOf_run_of_valid {tc : List ℚ → ℚ → ℚ × ℚ} {t : Table ℚ} {sel : String}
    (hsel : sel ∈ "All" :: all_countries t) (hne : t.rows ≠ []) :
    ciOf (runDashboard tc t sel) = some (ci_results tc t) := by
  have hfil : (filterByCountry t sel).rows ≠ [] := by
    rcases List.mem_cons.mp hsel with rfl | hmem
    · unfold filterByCountry
      rw [if_pos rfl]
      exact hne
    · obtain ⟨r, hr, hc⟩ := mem_all_countries hmem
      unfold filterByCountry
      split
      · exact hne
      · exact List.ne_nil_of_mem (List.mem_filter.mpr ⟨hr, by simp [hc]⟩)
  simp only [runDashboard]
  rw [if_neg (by simpa using hfil)]
  rfl

theorem all_countries_of_nil {t : Table ℚ} (h : t.rows = []) : all_countries t = [] := by
  unfold all_countries
  rw [h]
  rfl

/-- C3: for every cleaned table, the confidence-interval component of the
dashboard pass is the same whatever valid country selection is active —
the filter does not interfere with it (two-run noninterference over the
selection) — and that table has exactly one row per distinct country of the
*unfiltered* dataset, in ascending country order. -/
theorem ci_results_noninterference (tc : List ℚ → ℚ → ℚ × ℚ) (t : Table ℚ)
    (sel1 sel2 : String) (h1 : sel1 ∈ "All" :: all_countries t)
    (h2 : sel2 ∈ "All" :: all_countries t) :
    ciOf (runDashboard tc t sel1) = ciOf (runDashboard tc t sel2) ∧
      (ci_results tc t).map (fun row => row.Country) = all_countries t := by
  constructor
  · by_cases hne : t.rows = []
    · rw [all_countries_of_nil hne] at h1 h2
      simp only [List.mem_singleton] at h1 h2
      rw [h1, h2]
    · rw [ciOf_run_of_valid h1 hne, ciOf_run_of_valid h2 hne]
  · unfold ci_results
    rw [List.map_map]
    exact (List.map_congr_left (fun c _ => rfl)).trans (List.map_id _)

/-- Witness for C3: the hypotheses hold of the one-country table with the
selections `"All"` and `"A"`. -/
theorem ci_results_noninterference_witness :
    ("All" ∈ "All" :: all_countries tableOneCountry) ∧
      ("A" ∈ "All" :: all_countries tableOneCountry) ∧
      (ciOf (runDashboard tconfZero tableOneCountry "All") =
          ciOf (runDashboard tconfZero tableOneCountry "A") ∧
        (ci_results tconfZero tableOneCountry).map (fun row => row.Country) =
          all_countries tableOneCountry) :=
  ⟨by decide, by decide,
    ci_results_noninterference tconfZero tableOneCountry "All" "A" (by decide) (by decide)⟩

end StreetFood
